import Mathlib

/-!
Verification of the realtime market-data server (Express + socket.io demo).

The repository has two server variants:
* `server.js` — the richer variant: `/api/tokens` first tries an external
  fetch script and falls back to a static 8-token list, `/api/orderbook/:symbol`
  builds 15 bid/ask levels from one random base price, and the socket
  connection handler pushes `priceUpdate` / `orderBookUpdate` every 2000 ms.
* the unnamed Vercel variant (`part_000`) — always serves the static token
  list, and builds 10 bid/ask levels with independently random prices.

Modelling conventions:
* `Math.random()` is an injected stream `r : Nat → ℚ` of draws, consumed in
  source evaluation order; a genuine stream satisfies `UnitStream r`
  (every draw in `[0,1)`).
* JS numbers are modelled as `ℚ`; `Number.prototype.toFixed(d)` follows the
  ECMA algorithm: a negative input contributes a leading '-' and its
  magnitude is rounded on its own — the integer `n` minimizing the distance
  of `n / 10^d` to the magnitude, ties to the larger `n` — then printed
  with exactly `d` digits after the decimal point. In particular inputs in
  `[-0.005, 0)` print as "-0.00" at `d = 2`.
* `socket.emit` is a targeted emission carrying the owning socket id, as
  opposed to a broadcast; the connection handler's `setInterval` /
  `clearInterval` lifecycle is an explicit per-connection state machine.
-/

/-! Decimal formatting: the model of `Number.prototype.toFixed` -/

/-- One decimal digit character (0–9); other inputs map to a placeholder,
mirroring that callers only ever pass values `< 10`. -/
def digitChar (n : Nat) : Char :=
  match n with
  | 0 => '0' | 1 => '1' | 2 => '2' | 3 => '3' | 4 => '4'
  | 5 => '5' | 6 => '6' | 7 => '7' | 8 => '8' | 9 => '9'
  | _ => '*'

/-- The last `d` decimal digits of `n`, zero-padded to exactly `d` characters. -/
def padDigits : Nat → Nat → List Char
  | 0, _ => []
  | d + 1, n => padDigits d (n / 10) ++ [digitChar (n % 10)]

/-- Fuel-driven decimal printer for the integer part. -/
def natDigitsAux : Nat → Nat → List Char
  | 0, _ => []
  | fuel + 1, n =>
      if n < 10 then [digitChar n]
      else natDigitsAux fuel (n / 10) ++ [digitChar (n % 10)]

/-- Decimal digit characters of a natural number. -/
def natDigits (n : Nat) : List Char := natDigitsAux (n + 1) n

/-- Signed scaled rounding `⌊x·10^d + 1/2⌋`. For nonnegative `x` — every
price and amount this program formats — this is exactly the integer that JS
`x.toFixed(d)` prints (see `jsRoundMag_eq_jsRound`); it is used to state
facts about the rounded price ladder. -/
def jsRound (d : Nat) (x : ℚ) : ℤ := ⌊x * 10 ^ d + 1 / 2⌋

/-- Magnitude rounding of the ECMA `toFixed` algorithm: the integer `n`
minimizing the distance of `n / 10^d` to the magnitude of `x`, ties
resolved to the larger `n`. -/
def jsRoundMag (d : Nat) (x : ℚ) : Nat := (⌊|x| * 10 ^ d + 1 / 2⌋).toNat

/-- Character rendering of `toFixed` output from its sign flag and rounded
magnitude `m`: optional '-', then the integer part, '.', and exactly `d`
padded digits. -/
def toFixedChars (d : Nat) (neg : Bool) (m : Nat) : List Char :=
  (if neg then ['-'] else []) ++
    natDigits (m / 10 ^ d) ++ ['.'] ++ padDigits d (m % 10 ^ d)

/-- The model of JS `x.toFixed(d)` (for `d ≥ 1`, the only uses here),
following the ECMA algorithm: the sign of a negative input is emitted first
and the magnitude is rounded separately. -/
def toFixed (d : Nat) (x : ℚ) : String :=
  String.mk (toFixedChars d (decide (x < 0)) (jsRoundMag d x))

/-- Number of characters strictly after the last '.' of the string. -/
def fracDigits (s : String) : Nat :=
  (s.data.reverse.takeWhile (fun c => c ≠ '.')).length

/-- The string contains a decimal point. -/
def hasDot (s : String) : Prop := '.' ∈ s.data

/-- The string starts with an explicit sign character. -/
def hasExplicitSign (s : String) : Prop :=
  s.data.head? = some '+' ∨ s.data.head? = some '-'

instance (s : String) : Decidable (hasExplicitSign s) := by
  unfold hasExplicitSign; infer_instance

/-! Basic lemmas about the formatter -/

theorem digitChar_ne_dot (n : Nat) : digitChar n ≠ '.' := by
  unfold digitChar; split <;> decide

theorem digitChar_ne_plus (n : Nat) : digitChar n ≠ '+' := by
  unfold digitChar; split <;> decide

theorem digitChar_ne_minus (n : Nat) : digitChar n ≠ '-' := by
  unfold digitChar; split <;> decide

theorem digitChar_isDigit (n : Nat) (h : n < 10) : (digitChar n).isDigit := by
  interval_cases n <;> decide

theorem padDigits_length (d n : Nat) : (padDigits d n).length = d := by
  induction d generalizing n with
  | zero => rfl
  | succ d ih => simp [padDigits, ih]

theorem padDigits_mem (d n : Nat) (c : Char) (hc : c ∈ padDigits d n) :
    ∃ k, k < 10 ∧ c = digitChar k := by
  induction d generalizing n with
  | zero => simp [padDigits] at hc
  | succ d ih =>
      simp only [padDigits, List.mem_append, List.mem_singleton] at hc
      rcases hc with hc | hc
      · exact ih _ hc
      · exact ⟨n % 10, Nat.mod_lt _ (by norm_num), hc⟩

theorem natDigitsAux_mem (fuel n : Nat) (c : Char)
    (hc : c ∈ natDigitsAux fuel n) : ∃ k, k < 10 ∧ c = digitChar k := by
  induction fuel generalizing n with
  | zero => simp [natDigitsAux] at hc
  | succ fuel ih =>
      simp only [natDigitsAux] at hc
      by_cases h : n < 10
      · simp [h] at hc
        exact ⟨n, h, hc⟩
      · simp only [h, if_false, List.mem_append, List.mem_singleton] at hc
        rcases hc with hc | hc
        · exact ih _ hc
        · exact ⟨n % 10, Nat.mod_lt _ (by norm_num), hc⟩

theorem natDigits_mem (n : Nat) (c : Char) (hc : c ∈ natDigits n) :
    ∃ k, k < 10 ∧ c = digitChar k := natDigitsAux_mem _ _ _ hc

theorem natDigits_ne_nil (n : Nat) : natDigits n ≠ [] := by
  unfold natDigits natDigitsAux
  by_cases h : n < 10 <;> simp [h]

/-- `takeWhile` swallows a block that fully satisfies the predicate and
stops at the first failing element. -/
theorem takeWhile_append_stop (p : Char → Bool) (l : List Char) (b : Char)
    (t : List Char) (hl : ∀ a ∈ l, p a = true) (hb : p b = false) :
    (l ++ b :: t).takeWhile p = l := by
  induction l with
  | nil => simp [List.takeWhile, hb]
  | cons x xs ih =>
      have hx : p x = true := hl x (by simp)
      simp only [List.cons_append, List.takeWhile, hx]
      simp only [List.cons.injEq, true_and]
      exact ih fun a ha => hl a (by simp [ha])

theorem toFixedChars_fracDigits (d : Nat) (neg : Bool) (m : Nat) :
    fracDigits (String.mk (toFixedChars d neg m)) = d := by
  unfold fracDigits toFixedChars
  have hrev :
      ((if neg then ['-'] else []) ++
          natDigits (m / 10 ^ d) ++ ['.'] ++
          padDigits d (m % 10 ^ d)).reverse =
        (padDigits d (m % 10 ^ d)).reverse ++
          ('.' :: ((natDigits (m / 10 ^ d)).reverse ++
            (if neg then ['-'] else []).reverse)) := by
    simp [List.reverse_append]
  rw [show (String.mk
        ((if neg then ['-'] else []) ++
          natDigits (m / 10 ^ d) ++ ['.'] ++
          padDigits d (m % 10 ^ d))).data =
      (if neg then ['-'] else []) ++
        natDigits (m / 10 ^ d) ++ ['.'] ++
        padDigits d (m % 10 ^ d) from rfl]
  rw [hrev]
  have hall : ∀ a ∈ (padDigits d (m % 10 ^ d)).reverse,
      (fun c => decide (c ≠ '.')) a = true := by
    intro a ha
    have ha' : a ∈ padDigits d (m % 10 ^ d) := List.mem_reverse.mp ha
    obtain ⟨k, _, hk⟩ := padDigits_mem _ _ _ ha'
    subst hk
    simpa using digitChar_ne_dot k
  rw [takeWhile_append_stop (fun c => decide (c ≠ '.'))
      ((padDigits d (m % 10 ^ d)).reverse) '.'
      ((natDigits (m / 10 ^ d)).reverse ++ (if neg then ['-'] else []).reverse)
      hall (by decide)]
  simp [padDigits_length]

theorem toFixed_fracDigits (d : Nat) (x : ℚ) : fracDigits (toFixed d x) = d :=
  toFixedChars_fracDigits d (decide (x < 0)) (jsRoundMag d x)

theorem toFixed_hasDot (d : Nat) (x : ℚ) : hasDot (toFixed d x) := by
  unfold toFixed hasDot toFixedChars
  simp

/-- A formatted number starts with '+' never, and with '-' exactly when the
sign flag of the formatter is set. -/
theorem toFixedChars_head (d : Nat) (neg : Bool) (m : Nat) :
    (String.mk (toFixedChars d neg m)).data.head? ≠ some '+' ∧
      ((String.mk (toFixedChars d neg m)).data.head? = some '-' ↔ neg = true) := by
  unfold toFixedChars
  cases neg with
  | true => simp
  | false =>
    simp only [Bool.false_eq_true, iff_false, if_false, List.nil_append]
    obtain ⟨c, l, hl⟩ := List.exists_cons_of_ne_nil (natDigits_ne_nil (m / 10 ^ d))
    have hc : c ∈ natDigits (m / 10 ^ d) := by rw [hl]; simp
    obtain ⟨k, _, hk⟩ := natDigits_mem _ _ hc
    subst hk
    rw [hl]
    constructor
    · simp only [List.cons_append, List.head?_cons, ne_eq, Option.some.injEq]
      exact fun hEq => digitChar_ne_plus k hEq
    · simp only [List.cons_append, List.head?_cons, ne_eq, Option.some.injEq]
      exact fun hEq => digitChar_ne_minus k hEq

/-- The printed `toFixed` string never starts with '+', and starts with '-'
exactly when the input value is negative — including negative inputs whose
magnitude rounds to zero, which print as "-0.00" at `d = 2`. -/
theorem toFixed_head (d : Nat) (x : ℚ) :
    (toFixed d x).data.head? ≠ some '+' ∧
      ((toFixed d x).data.head? = some '-' ↔ x < 0) := by
  have h := toFixedChars_head d (decide (x < 0)) (jsRoundMag d x)
  exact ⟨h.1, h.2.trans decide_eq_true_iff⟩

/-- On nonnegative inputs — every price and amount this program formats —
the magnitude rounding agrees with the signed scaled rounding `jsRound`, so
`jsRound` is exactly the integer the printed string denotes there. -/
theorem jsRoundMag_eq_jsRound (d : Nat) (x : ℚ) (h : 0 ≤ x) :
    (jsRoundMag d x : ℤ) = jsRound d x := by
  unfold jsRoundMag jsRound
  rw [abs_of_nonneg h]
  rw [Int.toNat_of_nonneg]
  refine Int.le_floor.mpr ?_
  push_cast
  have h10 : (0:ℚ) ≤ 10 ^ d := by positivity
  nlinarith

/-! Random source model -/

/-- A genuine `Math.random()` stream: every draw lies in `[0,1)`. -/
def UnitStream (r : Nat → ℚ) : Prop := ∀ i, 0 ≤ r i ∧ r i < 1

/-! Endpoint `GET /api/tokens`. -/

/-- A Token Quote as produced by the tokens endpoint. -/
structure Token where
  symbol : String
  price : String
  change24h : String
  volume : String
  deriving DecidableEq

/-- The static fallback token list (identical literal in both server variants). -/
def mockTokens : List Token :=
  [⟨"BUDDY", "0.01214000", "+2.45", "1.2M"⟩,
   ⟨"RUB", "0.00834521", "+1.23", "856K"⟩,
   ⟨"PURR", "0.00456789", "-0.87", "2.1M"⟩,
   ⟨"LHYPE", "0.02345678", "+5.67", "3.4M"⟩,
   ⟨"PiP", "0.00123456", "+0.12", "678K"⟩,
   ⟨"HSTR", "0.01876543", "+3.21", "1.8M"⟩,
   ⟨"KITTEN", "0.00987654", "-1.45", "990K"⟩,
   ⟨"HL", "0.00345678", "+2.78", "1.5M"⟩]

/-- An order-book level `{ price, amount }`. -/
structure OrderLevel where
  price : String
  amount : String
  deriving DecidableEq

/-- An order book `{ bids, asks }`. -/
structure Orderbook where
  bids : List OrderLevel
  asks : List OrderLevel
  deriving DecidableEq

/-- JSON bodies the two API endpoints can answer with. -/
inductive HttpBody where
  | tokens (ts : List Token)
  | book (ob : Orderbook)
  | err (msg : String)
  deriving DecidableEq

/-- An HTTP response: status code and JSON body. -/
structure HttpResponse where
  status : Nat
  body : HttpBody
  deriving DecidableEq

/-- Handler of `GET /api/tokens` in `server.js`: the inner try invokes the external
fetch script (`execSync` + `JSON.parse`, modelled as the `Except` input); any
failure there is caught and answered with the static fallback list. The outer
catch (HTTP 500) guards only code that cannot fail in this body. -/
def tokensHandler (fetchResult : Except String (List Token)) : HttpResponse :=
  match fetchResult with
  | .ok ts => ⟨200, .tokens ts⟩
  | .error _ => ⟨200, .tokens mockTokens⟩

/-- Vercel-variant `GET /api/tokens` handler: always the static list. -/
def tokensHandlerVercel : HttpResponse := ⟨200, .tokens mockTokens⟩

/-! Endpoint `GET /api/orderbook/:symbol` — `server.js` (rich) variant.

```js
const basePrice = Math.random() * 0.01 + 0.005;
bids: Array.from({length: 15}, (_, i) => ({
    price: (basePrice - (i * 0.0001)).toFixed(8),
    amount: (Math.random() * 5000 + 100).toFixed(2) })),
asks: Array.from({length: 15}, (_, i) => ({
    price: (basePrice + (i * 0.0001)).toFixed(8),
    amount: (Math.random() * 5000 + 100).toFixed(2) }))
```
Draw order: draw 0 is the base price, draws 1–15 the bid amounts,
draws 16–30 the ask amounts. -/

/-- Value of the shared base price, `Math.random() * 0.01 + 0.005`. -/
def basePriceVal (r : Nat → ℚ) : ℚ := r 0 * (1 / 100) + 5 / 1000

/-- Value of the `i`-th rich-variant bid price: `basePrice - i * 0.0001`. -/
def richBidPriceVal (r : Nat → ℚ) (i : Nat) : ℚ :=
  basePriceVal r - i * (1 / 10000)

/-- Value of the `i`-th rich-variant ask price: `basePrice + i * 0.0001`. -/
def richAskPriceVal (r : Nat → ℚ) (i : Nat) : ℚ :=
  basePriceVal r + i * (1 / 10000)

/-- Value of the `i`-th rich-variant bid amount: `Math.random() * 5000 + 100`. -/
def richBidAmountVal (r : Nat → ℚ) (i : Nat) : ℚ := r (1 + i) * 5000 + 100

/-- Value of the `i`-th rich-variant ask amount. -/
def richAskAmountVal (r : Nat → ℚ) (i : Nat) : ℚ := r (16 + i) * 5000 + 100

/-- The rich-variant `GET /api/orderbook/:symbol` handler body (the `symbol`
parameter is only logged, never used in generation). -/
def orderbookRich (symbol : String) (r : Nat → ℚ) : Orderbook :=
  { bids := (List.range 15).map fun i =>
      ⟨toFixed 8 (richBidPriceVal r i), toFixed 2 (richBidAmountVal r i)⟩
    asks := (List.range 15).map fun i =>
      ⟨toFixed 8 (richAskPriceVal r i), toFixed 2 (richAskAmountVal r i)⟩ }

/-! Endpoint `GET /api/orderbook/:symbol` — Vercel variant.

```js
bids: Array.from({length: 10}, (_, i) => ({
    price: (Math.random() * 0.001 + 0.01).toFixed(8),
    amount: (Math.random() * 1000 + 100).toFixed(2) })),
asks: Array.from({length: 10}, (_, i) => ({
    price: (Math.random() * 0.001 + 0.011).toFixed(8),
    amount: (Math.random() * 1000 + 100).toFixed(2) }))
```
No base price: every price is an independent draw. Draws 0–19 build the
bids (price then amount per level), draws 20–39 the asks. -/

/-- Value of the `i`-th Vercel-variant bid price: an independent draw scaled
into `[0.01, 0.011)`. -/
def vercelBidPriceVal (r : Nat → ℚ) (i : Nat) : ℚ := r (2 * i) * (1 / 1000) + 1 / 100

/-- Value of the `i`-th Vercel-variant bid amount. -/
def vercelBidAmountVal (r : Nat → ℚ) (i : Nat) : ℚ := r (2 * i + 1) * 1000 + 100

/-- Value of the `i`-th Vercel-variant ask price: an independent draw scaled
into `[0.011, 0.012)`. -/
def vercelAskPriceVal (r : Nat → ℚ) (i : Nat) : ℚ :=
  r (20 + 2 * i) * (1 / 1000) + 11 / 1000

/-- Value of the `i`-th Vercel-variant ask amount. -/
def vercelAskAmountVal (r : Nat → ℚ) (i : Nat) : ℚ := r (20 + 2 * i + 1) * 1000 + 100

/-- The Vercel-variant `GET /api/orderbook/:symbol` handler body (the `symbol`
parameter is only logged, never used in generation). -/
def orderbookVercel (symbol : String) (r : Nat → ℚ) : Orderbook :=
  { bids := (List.range 10).map fun i =>
      ⟨toFixed 8 (vercelBidPriceVal r i), toFixed 2 (vercelBidAmountVal r i)⟩
    asks := (List.range 10).map fun i =>
      ⟨toFixed 8 (vercelAskPriceVal r i), toFixed 2 (vercelAskAmountVal r i)⟩ }

/-! Realtime channel: per-connection ticks.

```js
const updateInterval = setInterval(() => {
    socket.emit("priceUpdate", {
        symbol: "BUDDY",
        price: (Math.random() * 0.002 + 0.01).toFixed(8),
        change: ((Math.random() - 0.5) * 10).toFixed(2) });
    socket.emit("orderBookUpdate", {
        symbol: "BUDDY",
        buyPercentage: Math.floor(Math.random() * 40 + 30),
        sellPercentage: Math.floor(Math.random() * 40 + 30) });
}, 2000);
socket.on("disconnect", () => clearInterval(updateInterval));
```
Per callback firing the four draws are consumed in order: price, change,
buyPercentage, sellPercentage. -/

/-- Payload of a `priceUpdate` event. -/
structure PriceTick where
  symbol : String
  price : String
  change : String
  deriving DecidableEq

/-- Payload of an `orderBookUpdate` event (`Math.floor` of a JS number, so `ℤ`). -/
structure OrderBookTick where
  symbol : String
  buyPercentage : ℤ
  sellPercentage : ℤ
  deriving DecidableEq

/-- Value of the pushed price before formatting, `Math.random() * 0.002 + 0.01`. -/
def pushPriceVal (r : Nat → ℚ) : ℚ := r 0 * (2 / 1000) + 1 / 100

/-- Value of the pushed change before formatting, `(Math.random() - 0.5) * 10`. -/
def pushChangeVal (r : Nat → ℚ) : ℚ := (r 1 - 1 / 2) * 10

/-- Price tick built by the interval callback
(draws 0 and 1 of the callback's stream). -/
def priceTick (r : Nat → ℚ) : PriceTick :=
  ⟨"BUDDY", toFixed 8 (pushPriceVal r), toFixed 2 (pushChangeVal r)⟩

/-- Order-book tick built by the interval callback
(two further independent draws). -/
def orderBookTick (r : Nat → ℚ) : OrderBookTick :=
  ⟨"BUDDY", ⌊r 0 * 40 + 30⌋, ⌊r 1 * 40 + 30⌋⟩

/-- A payload pushed over the realtime channel. -/
inductive Payload where
  | price (p : PriceTick)
  | book (o : OrderBookTick)
  deriving DecidableEq

/-- The symbol carried by a pushed payload. -/
def Payload.symbol : Payload → String
  | .price p => p.symbol
  | .book o => o.symbol

/-- One `socket.emit` call: delivery of `payload` under event name `event`
to the single socket `target` (never a broadcast). -/
structure Emission where
  target : Nat
  event : String
  payload : Payload
  deriving DecidableEq

/-- Model of `socket.emit(event, payload)` on the socket with id `target`. -/
def socketEmit (target : Nat) (event : String) (p : Payload) : Emission :=
  ⟨target, event, p⟩

/-- One firing of the interval callback owned by connection `c`: the two `socket.emit`
calls, in source order, both targeted at `c`. Draws 0–1 feed the price tick
and draws 2–3 the order-book tick. -/
def intervalCallback (c : Nat) (r : Nat → ℚ) : List Emission :=
  [socketEmit c "priceUpdate" (.price (priceTick r)),
   socketEmit c "orderBookUpdate" (.book (orderBookTick (fun i => r (2 + i))))]

/-! Connection lifecycle state machine.

`io.on("connection", socket => ...)` runs once per accepted connection and
calls `setInterval` exactly once; `socket.on("disconnect", ...)` calls
`clearInterval` on the stored handle. Node's `clearInterval` is total (a
second call, or a call with no live timer, is a no-op and never throws),
and a cleared interval never fires again. -/

/-- Events a single connection can experience after being accepted:
a timer firing (with the draws it consumes) or the disconnect signal. -/
inductive ConnEvent where
  | tick (r : Nat → ℚ)
  | disconnect

/-- Whether the event is the disconnect signal. -/
def ConnEvent.isDisconnect : ConnEvent → Bool
  | .disconnect => true
  | .tick _ => false

/-- Per-connection scheduler state: the number of live interval handles
owned by the connection. -/
structure ConnState where
  timers : Nat
  deriving DecidableEq

/-- State set up by the connection handler body: exactly one `setInterval` call. -/
def onConnect : ConnState := ⟨1⟩

/-- Model of `clearInterval(updateInterval)`: total, idempotent release of the handle. -/
def clearTimer (s : ConnState) : ConnState := ⟨0⟩

/-- One lifecycle step of connection `c`: a timer firing emits the two
updates only while the interval is live (a cleared interval never fires);
the disconnect handler clears the interval. -/
def stepConn (c : Nat) (s : ConnState) : ConnEvent → ConnState × List Emission
  | .tick r => (s, if s.timers ≠ 0 then intervalCallback c r else [])
  | .disconnect => (clearTimer s, [])

/-- Run connection `c` from state `s` through a sequence of events,
collecting every emission delivered to it. -/
def runConn (c : Nat) (s : ConnState) : List ConnEvent → ConnState × List Emission
  | [] => (s, [])
  | e :: es =>
      ((runConn c (stepConn c s e).1 es).1,
        (stepConn c s e).2 ++ (runConn c (stepConn c s e).1 es).2)

/-! Lemmas about the connection lifecycle machine. -/

theorem runConn_timers (c : Nat) (s : ConnState) (evs : List ConnEvent) :
    (runConn c s evs).1.timers =
      (if evs.any ConnEvent.isDisconnect then 0 else s.timers) := by
  induction evs generalizing s with
  | nil => simp [runConn]
  | cons e es ih =>
      cases e with
      | tick r =>
          simp [runConn, stepConn, List.any_cons, ConnEvent.isDisconnect, ih]
      | disconnect =>
          simp [runConn, stepConn, clearTimer, List.any_cons, ConnEvent.isDisconnect, ih]

theorem runConn_dead (c : Nat) (evs : List ConnEvent) :
    runConn c ⟨0⟩ evs = (⟨0⟩, []) := by
  induction evs with
  | nil => rfl
  | cons e es ih =>
      cases e with
      | tick r => simp [runConn, stepConn, ih]
      | disconnect => simp [runConn, stepConn, clearTimer, ih]

theorem runConn_append (c : Nat) (s : ConnState) (p q : List ConnEvent) :
    runConn c s (p ++ q) =
      ((runConn c (runConn c s p).1 q).1,
        (runConn c s p).2 ++ (runConn c (runConn c s p).1 q).2) := by
  induction p generalizing s with
  | nil => simp [runConn]
  | cons e es ih => simp [runConn, ih]

/-! Arithmetic helpers for the rounded price ladder. -/

theorem jsRound_shift_down (v : ℚ) :
    jsRound 8 (v - 1 / 10000) = jsRound 8 v - 10000 := by
  unfold jsRound
  rw [show ((v - 1 / 10000) * 10 ^ 8 + 1 / 2 : ℚ) =
      (v * 10 ^ 8 + 1 / 2) - ((10000 : ℤ) : ℚ) by push_cast; ring]
  exact Int.floor_sub_int _ _

theorem jsRound_shift_up (v : ℚ) :
    jsRound 8 (v + 1 / 10000) = jsRound 8 v + 10000 := by
  unfold jsRound
  rw [show ((v + 1 / 10000) * 10 ^ 8 + 1 / 2 : ℚ) =
      (v * 10 ^ 8 + 1 / 2) + ((10000 : ℤ) : ℚ) by push_cast; ring]
  exact Int.floor_add_int _ _

theorem toFixed_dotB (d : Nat) (x : ℚ) :
    (toFixed d x).data.any (fun c => c == '.') = true := by
  have h : '.' ∈ (toFixed d x).data := toFixed_hasDot d x
  simp only [List.any_eq_true]
  exact ⟨'.', h, by simp⟩

/-! Theorems for the frozen claims. -/

/-- C1: when the optional external fetch script fails (models `execSync` or
`JSON.parse` throwing), `GET /api/tokens` still answers HTTP 200 with the
static fallback list of exactly 8 token quotes — each with nonempty
`symbol`/`price`/`change24h`/`volume` string fields — and the 500 response is
never produced by an upstream data failure; the Vercel variant answers the
same list unconditionally. -/
theorem claim_C1 :
    (∀ msg : String,
      tokensHandler (Except.error msg) = ⟨200, HttpBody.tokens mockTokens⟩) ∧
    mockTokens.length = 8 ∧
    (mockTokens.all fun t =>
      !(t.symbol == "") && !(t.price == "") &&
        !(t.change24h == "") && !(t.volume == "")) = true ∧
    tokensHandlerVercel = ⟨200, HttpBody.tokens mockTokens⟩ :=
  ⟨fun _ => rfl, rfl, by decide, rfl⟩

/-- C2: the connection handler creates exactly one interval on connect, at
every point of every event trace the connection owns at most one live
interval — exactly one until a disconnect occurs, zero afterwards — so no
two schedulers for the same connection ever coexist, and the task does not
outlive its owning connection. -/
theorem claim_C2 (c : Nat) (evs : List ConnEvent) :
    onConnect.timers = 1 ∧
    (runConn c onConnect evs).1.timers =
      (if evs.any ConnEvent.isDisconnect then 0 else 1) ∧
    (runConn c onConnect evs).1.timers ≤ 1 := by
  refine ⟨rfl, runConn_timers c onConnect evs, ?_⟩
  rw [runConn_timers]
  split <;> simp [onConnect]

/-- C3: after a disconnect, no further emission is ever delivered to the
connection (the trace of emissions of any run is unchanged by events after
the disconnect), and the disconnect handler is idempotent: clearing the
interval a second time is a no-op (and, being a total function, never
throws). -/
theorem claim_C3 (c : Nat) (p t : List ConnEvent) (s : ConnState) :
    (runConn c onConnect (p ++ ConnEvent.disconnect :: t)).2 =
      (runConn c onConnect (p ++ [ConnEvent.disconnect])).2 ∧
    stepConn c (stepConn c s ConnEvent.disconnect).1 ConnEvent.disconnect =
      stepConn c s ConnEvent.disconnect := by
  constructor
  · rw [runConn_append, runConn_append]
    simp [runConn, stepConn, clearTimer, runConn_dead]
  · rfl

/-- C4: for every symbol and every random stream, the rich variant's order
book has exactly 15 bids and 15 asks and the Vercel variant exactly 10 and
10; every level of either book has a price string with exactly 8 fractional
digits and an amount string with exactly 2 fractional digits (and both
strings contain a decimal point). -/
theorem claim_C4 (sym : String) (r : Nat → ℚ) :
    (orderbookRich sym r).bids.length = 15 ∧
    (orderbookRich sym r).asks.length = 15 ∧
    (orderbookVercel sym r).bids.length = 10 ∧
    (orderbookVercel sym r).asks.length = 10 ∧
    ((orderbookRich sym r).bids ++ (orderbookRich sym r).asks).map
        (fun l => (fracDigits l.price, fracDigits l.amount)) =
      List.replicate 30 (8, 2) ∧
    ((orderbookVercel sym r).bids ++ (orderbookVercel sym r).asks).map
        (fun l => (fracDigits l.price, fracDigits l.amount)) =
      List.replicate 20 (8, 2) ∧
    (((orderbookRich sym r).bids ++ (orderbookRich sym r).asks).all fun l =>
      l.price.data.any (fun c => c == '.') &&
        l.amount.data.any (fun c => c == '.')) = true ∧
    (((orderbookVercel sym r).bids ++ (orderbookVercel sym r).asks).all fun l =>
      l.price.data.any (fun c => c == '.') &&
        l.amount.data.any (fun c => c == '.')) = true := by
  refine ⟨by simp [orderbookRich], by simp [orderbookRich],
    by simp [orderbookVercel], by simp [orderbookVercel], ?_, ?_, ?_, ?_⟩
  · rw [List.eq_replicate_iff]
    constructor
    · simp [orderbookRich]
    · intro b hb
      simp only [orderbookRich, List.mem_append, List.mem_map,
        List.mem_range] at hb
      rcases hb with ⟨l, ⟨i, _, rfl⟩ | ⟨i, _, rfl⟩, rfl⟩ <;>
        simp [toFixed_fracDigits]
  · rw [List.eq_replicate_iff]
    constructor
    · simp [orderbookVercel]
    · intro b hb
      simp only [orderbookVercel, List.mem_append, List.mem_map,
        List.mem_range] at hb
      rcases hb with ⟨l, ⟨i, _, rfl⟩ | ⟨i, _, rfl⟩, rfl⟩ <;>
        simp [toFixed_fracDigits]
  · rw [List.all_eq_true]
    intro l hl
    simp only [orderbookRich, List.mem_append, List.mem_map,
      List.mem_range] at hl
    rcases hl with ⟨i, _, rfl⟩ | ⟨i, _, rfl⟩ <;>
      simp [toFixed_dotB]
  · rw [List.all_eq_true]
    intro l hl
    simp only [orderbookVercel, List.mem_append, List.mem_map,
      List.mem_range] at hl
    rcases hl with ⟨i, _, rfl⟩ | ⟨i, _, rfl⟩ <;>
      simp [toFixed_dotB]

/-- Concrete draw stream for refuting claim C5 on the Vercel variant:
draw 2 (the second bid price) is 1/2, all other draws are 0. -/
def rC5 : Nat → ℚ := fun i => if i = 2 then 1 / 2 else 0

/-- C5 (counterexample): in the Vercel variant there is no shared base
price — every level price is an independent draw — and under the genuine
stream `rC5` the first two bid prices are strictly increasing
("0.01000000" then "0.01050000"), refuting the claimed descending bid
sequence for the Get Order Book operation of that variant. -/
theorem claim_C5_counterexample :
    UnitStream rC5 ∧
    ((orderbookVercel "BUDDY" rC5).bids.map OrderLevel.price)[0]? =
      some "0.01000000" ∧
    ((orderbookVercel "BUDDY" rC5).bids.map OrderLevel.price)[1]? =
      some "0.01050000" ∧
    vercelBidPriceVal rC5 0 < vercelBidPriceVal rC5 1 := by
  have hv0 : vercelBidPriceVal rC5 0 = 1 / 100 := by
    unfold vercelBidPriceVal rC5; norm_num
  have hv1 : vercelBidPriceVal rC5 1 = 21 / 2000 := by
    unfold vercelBidPriceVal rC5; norm_num
  have e0 : toFixed 8 (vercelBidPriceVal rC5 0) = "0.01000000" := by
    rw [hv0]
    unfold toFixed
    rw [decide_eq_false (by norm_num : ¬ ((1 : ℚ) / 100 < 0))]
    rw [show jsRoundMag 8 (1 / 100 : ℚ) = 1000000 by
      unfold jsRoundMag
      rw [show (|(1 : ℚ) / 100| * 10 ^ 8 + 1 / 2 : ℚ) = 2000001 / 2 by
        rw [abs_of_nonneg (by norm_num : (0:ℚ) ≤ 1 / 100)]; norm_num]
      rw [show ⌊(2000001 / 2 : ℚ)⌋ = 1000000 by
        rw [Int.floor_eq_iff]; constructor <;> norm_num]
      rfl]
    decide
  have e1 : toFixed 8 (vercelBidPriceVal rC5 1) = "0.01050000" := by
    rw [hv1]
    unfold toFixed
    rw [decide_eq_false (by norm_num : ¬ ((21 : ℚ) / 2000 < 0))]
    rw [show jsRoundMag 8 (21 / 2000 : ℚ) = 1050000 by
      unfold jsRoundMag
      rw [show (|(21 : ℚ) / 2000| * 10 ^ 8 + 1 / 2 : ℚ) = 2100001 / 2 by
        rw [abs_of_nonneg (by norm_num : (0:ℚ) ≤ 21 / 2000)]; norm_num]
      rw [show ⌊(2100001 / 2 : ℚ)⌋ = 1050000 by
        rw [Int.floor_eq_iff]; constructor <;> norm_num]
      rfl]
    decide
  refine ⟨fun i => by unfold rC5; split <;> norm_num, ?_, ?_, ?_⟩
  · simp only [orderbookVercel, List.map_map, List.getElem?_map,
      List.getElem?_range (by norm_num : (0:Nat) < 10)]
    simp [e0]
  · simp only [orderbookVercel, List.map_map, List.getElem?_map,
      List.getElem?_range (by norm_num : (1:Nat) < 10)]
    simp [e1]
  · unfold vercelBidPriceVal rC5
    norm_num

/-- C5 (amended): in the rich (`server.js`) variant the operation picks one
base price in `[0.005, 0.015)`, the 15 bid price values descend from it in
exact steps of 0.0001 (so their 8-digit roundings descend in exact steps of
10000) and the 15 ask price values ascend likewise, with every amount drawn
independently into `[100, 5100)`; in the Vercel variant there is no shared
base price: each bid price is an independent draw in `[0.01, 0.011)` and
each ask price one in `[0.011, 0.012)`. -/
theorem claim_C5 (r : Nat → ℚ) (hr : UnitStream r) :
    (5 / 1000 ≤ basePriceVal r ∧ basePriceVal r < 15 / 1000) ∧
    (∀ i : Nat, richBidPriceVal r (i + 1) < richBidPriceVal r i) ∧
    (∀ i : Nat, richAskPriceVal r i < richAskPriceVal r (i + 1)) ∧
    (∀ i : Nat,
      jsRound 8 (richBidPriceVal r (i + 1)) = jsRound 8 (richBidPriceVal r i) - 10000) ∧
    (∀ i : Nat,
      jsRound 8 (richAskPriceVal r (i + 1)) = jsRound 8 (richAskPriceVal r i) + 10000) ∧
    (∀ i : Nat, 100 ≤ richBidAmountVal r i ∧ richBidAmountVal r i < 5100) ∧
    (∀ i : Nat, 100 ≤ richAskAmountVal r i ∧ richAskAmountVal r i < 5100) ∧
    (∀ i : Nat, 1 / 100 ≤ vercelBidPriceVal r i ∧ vercelBidPriceVal r i < 11 / 1000) ∧
    (∀ i : Nat, 11 / 1000 ≤ vercelAskPriceVal r i ∧ vercelAskPriceVal r i < 12 / 1000) := by
  have hbid : ∀ i : Nat, richBidPriceVal r (i + 1) = richBidPriceVal r i - 1 / 10000 := by
    intro i; unfold richBidPriceVal; push_cast; ring
  have hask : ∀ i : Nat, richAskPriceVal r (i + 1) = richAskPriceVal r i + 1 / 10000 := by
    intro i; unfold richAskPriceVal; push_cast; ring
  obtain ⟨h0, h0'⟩ := hr 0
  refine ⟨⟨?_, ?_⟩, ?_, ?_, ?_, ?_, ?_, ?_, ?_, ?_⟩
  · unfold basePriceVal; nlinarith
  · unfold basePriceVal; nlinarith
  · intro i; rw [hbid i]; linarith
  · intro i; rw [hask i]; linarith
  · intro i; rw [hbid i]; exact jsRound_shift_down _
  · intro i; rw [hask i]; exact jsRound_shift_up _
  · intro i
    obtain ⟨h, h'⟩ := hr (1 + i)
    unfold richBidAmountVal
    constructor <;> nlinarith
  · intro i
    obtain ⟨h, h'⟩ := hr (16 + i)
    unfold richAskAmountVal
    constructor <;> nlinarith
  · intro i
    obtain ⟨h, h'⟩ := hr (2 * i)
    unfold vercelBidPriceVal
    constructor <;> nlinarith
  · intro i
    obtain ⟨h, h'⟩ := hr (20 + 2 * i)
    unfold vercelAskPriceVal
    constructor <;> nlinarith

/-- Witness for C5 at the all-zero stream. -/
theorem claim_C5_witness :
    (5 / 1000 ≤ basePriceVal (fun _ => 0) ∧ basePriceVal (fun _ => 0) < 15 / 1000) ∧
    (∀ i : Nat,
      richBidPriceVal (fun _ => 0) (i + 1) < richBidPriceVal (fun _ => 0) i) ∧
    (∀ i : Nat,
      richAskPriceVal (fun _ => 0) i < richAskPriceVal (fun _ => 0) (i + 1)) ∧
    (∀ i : Nat, jsRound 8 (richBidPriceVal (fun _ => 0) (i + 1)) =
      jsRound 8 (richBidPriceVal (fun _ => 0) i) - 10000) ∧
    (∀ i : Nat, jsRound 8 (richAskPriceVal (fun _ => 0) (i + 1)) =
      jsRound 8 (richAskPriceVal (fun _ => 0) i) + 10000) ∧
    (∀ i : Nat, 100 ≤ richBidAmountVal (fun _ => 0) i ∧
      richBidAmountVal (fun _ => 0) i < 5100) ∧
    (∀ i : Nat, 100 ≤ richAskAmountVal (fun _ => 0) i ∧
      richAskAmountVal (fun _ => 0) i < 5100) ∧
    (∀ i : Nat, 1 / 100 ≤ vercelBidPriceVal (fun _ => 0) i ∧
      vercelBidPriceVal (fun _ => 0) i < 11 / 1000) ∧
    (∀ i : Nat, 11 / 1000 ≤ vercelAskPriceVal (fun _ => 0) i ∧
      vercelAskPriceVal (fun _ => 0) i < 12 / 1000) :=
  claim_C5 (fun _ => 0) (fun _ => by norm_num)

/-- C6: for every genuine draw stream, `buyPercentage` and `sellPercentage`
of an order-book tick are integers within `[30, 70]` inclusive (each from
its own independent draw), and they need not sum to 100 — witnessed by a
genuine stream under which they sum to 60. -/
theorem claim_C6 :
    (∀ r : Nat → ℚ, UnitStream r →
      30 ≤ (orderBookTick r).buyPercentage ∧ (orderBookTick r).buyPercentage ≤ 70 ∧
      30 ≤ (orderBookTick r).sellPercentage ∧ (orderBookTick r).sellPercentage ≤ 70) ∧
    (∃ r : Nat → ℚ, UnitStream r ∧
      (orderBookTick r).buyPercentage + (orderBookTick r).sellPercentage ≠ 100) := by
  constructor
  · intro r hr
    obtain ⟨h0, h0'⟩ := hr 0
    obtain ⟨h1, h1'⟩ := hr 1
    refine ⟨?_, ?_, ?_, ?_⟩
    · show (30:ℤ) ≤ ⌊r 0 * 40 + 30⌋
      exact Int.le_floor.mpr (by push_cast; nlinarith)
    · show ⌊r 0 * 40 + 30⌋ ≤ 70
      have h : ⌊r 0 * 40 + 30⌋ < 70 := Int.floor_lt.mpr (by push_cast; nlinarith)
      omega
    · show (30:ℤ) ≤ ⌊r 1 * 40 + 30⌋
      exact Int.le_floor.mpr (by push_cast; nlinarith)
    · show ⌊r 1 * 40 + 30⌋ ≤ 70
      have h : ⌊r 1 * 40 + 30⌋ < 70 := Int.floor_lt.mpr (by push_cast; nlinarith)
      omega
  · refine ⟨fun _ => 0, fun _ => by norm_num, ?_⟩
    unfold orderBookTick
    norm_num

/-- Witness for C6 at the all-zero stream. -/
theorem claim_C6_witness :
    30 ≤ (orderBookTick (fun _ => 0)).buyPercentage ∧
      (orderBookTick (fun _ => 0)).buyPercentage ≤ 70 ∧
      30 ≤ (orderBookTick (fun _ => 0)).sellPercentage ∧
      (orderBookTick (fun _ => 0)).sellPercentage ≤ 70 :=
  claim_C6.1 (fun _ => 0) (fun _ => by norm_num)

/-- C7: one firing of the interval callback of connection `c` is exactly the
two-element emission sequence — one `priceUpdate` then one `orderBookUpdate`
on the same tick — every emission of it targets `c` itself (socket-level
emit, no broadcast), a live timer firing produces exactly this sequence, and
a cleared timer produces nothing. -/
theorem claim_C7 (c : Nat) (r : Nat → ℚ) :
    intervalCallback c r =
      [socketEmit c "priceUpdate" (Payload.price (priceTick r)),
       socketEmit c "orderBookUpdate"
         (Payload.book (orderBookTick (fun i => r (2 + i))))] ∧
    (intervalCallback c r).map Emission.target = [c, c] ∧
    (intervalCallback c r).map Emission.event = ["priceUpdate", "orderBookUpdate"] ∧
    (stepConn c onConnect (ConnEvent.tick r)).2 = intervalCallback c r ∧
    (stepConn c (clearTimer onConnect) (ConnEvent.tick r)).2 = [] := by
  refine ⟨rfl, rfl, rfl, ?_, ?_⟩
  · simp [stepConn, onConnect]
  · simp [stepConn, clearTimer]

/-- Concrete draw stream for refuting claim C8: every draw is 9/10, so the
pushed change rounds to the positive value 4.00. -/
def rC8 : Nat → ℚ := fun _ => 9 / 10

/-- C8 (counterexample): under the genuine stream `rC8`, the `change` field
of the pushed price tick is the string "4.00", which carries no leading
sign character — refuting the claim that every percentage-change field
produced by the program has an explicit leading sign. -/
theorem claim_C8_counterexample :
    UnitStream rC8 ∧ (priceTick rC8).change = "4.00" ∧
      ¬ hasExplicitSign (priceTick rC8).change := by
  have hch : (priceTick rC8).change = "4.00" := by
    show toFixed 2 (pushChangeVal rC8) = "4.00"
    have hv : pushChangeVal rC8 = 4 := by unfold pushChangeVal rC8; norm_num
    rw [hv]
    unfold toFixed
    rw [decide_eq_false (by norm_num : ¬ ((4 : ℚ) < 0))]
    rw [show jsRoundMag 2 (4 : ℚ) = 400 by
      unfold jsRoundMag
      rw [show (|(4 : ℚ)| * 10 ^ 2 + 1 / 2 : ℚ) = 801 / 2 by
        rw [abs_of_nonneg (by norm_num : (0:ℚ) ≤ 4)]; norm_num]
      rw [show ⌊(801 / 2 : ℚ)⌋ = 400 by
        rw [Int.floor_eq_iff]; constructor <;> norm_num]
      rfl]
    decide
  refine ⟨fun _ => by unfold rC8; norm_num, hch, ?_⟩
  rw [hch]
  decide

/-- C8 (amended): the `change24h` fields of the static fallback token list
all carry an explicit leading sign and exactly 2 fractional digits; the
`change` field of every pushed price tick has exactly 2 fractional digits,
never a leading '+', and a leading '-' exactly when the generated change
value is negative — including changes that round to zero: a genuine stream
makes the program emit the change string "-0.00". -/
theorem claim_C8 :
    (∀ t ∈ mockTokens, hasExplicitSign t.change24h ∧ fracDigits t.change24h = 2) ∧
    (∀ r : Nat → ℚ,
      fracDigits (priceTick r).change = 2 ∧
      (priceTick r).change.data.head? ≠ some '+' ∧
      ((priceTick r).change.data.head? = some '-' ↔ pushChangeVal r < 0)) ∧
    (∃ r : Nat → ℚ, UnitStream r ∧
      (priceTick r).change = "-0.00" ∧ pushChangeVal r < 0) := by
  refine ⟨by decide, ?_, ?_⟩
  · intro r
    exact ⟨toFixed_fracDigits 2 _, (toFixed_head 2 _).1, (toFixed_head 2 _).2⟩
  · refine ⟨fun _ => 4999 / 10000, fun _ => by norm_num, ?_, ?_⟩
    · show toFixed 2 (pushChangeVal fun _ => 4999 / 10000) = "-0.00"
      have hv : pushChangeVal (fun _ => 4999 / 10000) = -1 / 1000 := by
        unfold pushChangeVal; norm_num
      rw [hv]
      unfold toFixed
      rw [decide_eq_true (by norm_num : ((-1 : ℚ) / 1000 < 0))]
      rw [show jsRoundMag 2 (-1 / 1000 : ℚ) = 0 by
        unfold jsRoundMag
        rw [show (|(-1 : ℚ) / 1000| * 10 ^ 2 + 1 / 2 : ℚ) = 3 / 5 by
          rw [abs_of_nonpos (by norm_num : ((-1 : ℚ) / 1000) ≤ 0)]; norm_num]
        rw [show ⌊(3 / 5 : ℚ)⌋ = 0 by
          rw [Int.floor_eq_iff]; constructor <;> norm_num]
        rfl]
      decide
    · unfold pushChangeVal; norm_num

/-- Witness for C8 at the first fallback token. -/
theorem claim_C8_witness :
    hasExplicitSign (Token.change24h ⟨"BUDDY", "0.01214000", "+2.45", "1.2M"⟩) ∧
      fracDigits (Token.change24h ⟨"BUDDY", "0.01214000", "+2.45", "1.2M"⟩) = 2 :=
  claim_C8.1 ⟨"BUDDY", "0.01214000", "+2.45", "1.2M"⟩ (by decide)

/-- C9: the order-book generation never reads the symbol: for any two
symbols (validated or not) and the same draws, both variants produce
identical responses — in particular the same field names and level counts. -/
theorem claim_C9 (sym1 sym2 : String) (r : Nat → ℚ) :
    orderbookRich sym1 r = orderbookRich sym2 r ∧
    orderbookVercel sym1 r = orderbookVercel sym2 r :=
  ⟨rfl, rfl⟩

/-- C10: every pushed tick carries the constant symbol "BUDDY" in both its
emissions, independent of the connection and the draws, the pushed price is
the 8-digit formatting of a value in `[0.01, 0.012)`, and the pushed change
is the 2-digit formatting of a value in `[-5, 5)`. -/
theorem claim_C10 (c : Nat) (r : Nat → ℚ) (hr : UnitStream r) :
    (priceTick r).symbol = "BUDDY" ∧
    (orderBookTick r).symbol = "BUDDY" ∧
    ((intervalCallback c r).map fun e => e.payload.symbol) = ["BUDDY", "BUDDY"] ∧
    (priceTick r).price = toFixed 8 (pushPriceVal r) ∧
    1 / 100 ≤ pushPriceVal r ∧ pushPriceVal r < 12 / 1000 ∧
    (priceTick r).change = toFixed 2 (pushChangeVal r) ∧
    -5 ≤ pushChangeVal r ∧ pushChangeVal r < 5 := by
  obtain ⟨h0, h0'⟩ := hr 0
  obtain ⟨h1, h1'⟩ := hr 1
  refine ⟨rfl, rfl, rfl, rfl, ?_, ?_, rfl, ?_, ?_⟩ <;>
    simp only [pushPriceVal, pushChangeVal] <;> nlinarith

/-- Witness for C10 at connection 0 and the all-zero stream. -/
theorem claim_C10_witness :
    (priceTick (fun _ => 0)).symbol = "BUDDY" ∧
    (orderBookTick (fun _ => 0)).symbol = "BUDDY" ∧
    ((intervalCallback 0 (fun _ => 0)).map fun e => e.payload.symbol) =
      ["BUDDY", "BUDDY"] ∧
    (priceTick (fun _ => 0)).price = toFixed 8 (pushPriceVal (fun _ => 0)) ∧
    1 / 100 ≤ pushPriceVal (fun _ => 0) ∧ pushPriceVal (fun _ => 0) < 12 / 1000 ∧
    (priceTick (fun _ => 0)).change = toFixed 2 (pushChangeVal (fun _ => 0)) ∧
    -5 ≤ pushChangeVal (fun _ => 0) ∧ pushChangeVal (fun _ => 0) < 5 :=
  claim_C10 0 (fun _ => 0) (fun _ => by norm_num)
